import Mathlib

/-!
Verification of the Nifty-render intraday pipeline (src/app.py).

The pipeline under study is:
  get_nifty_15min  : provider rows -> normalize -> session filter -> 15-minute
                     resample -> dense position index  (app.py lines 29-79)
  macd_signals     : close series -> fast/slow EMA -> MACD, signal, histogram,
                     zero-line buy/sell flags          (app.py lines 84-95)
  get_current_signal : latest-point trend comparison   (app.py lines 100-125)

Modelling conventions:
  - prices and volumes are rationals (the Python floats carry exact decimal
    market data; no float rounding is relevant to any claim);
  - timestamps are minutes since an arbitrary midnight, already in the
    exchange's local zone (Asia/Kolkata); the tz-localize/convert step of
    lines 44-50 is a pure re-labelling and is absorbed into this choice;
  - a pandas NaN produced by a failed numeric coercion is `Option.none`;
  - pandas vectorised series operations become list operations;
  - a Python exception escaping the function is `Except.error`.
-/

/-- A raw provider field before `pd.to_numeric(..., errors="coerce")`:
either a numeric value or a non-numeric payload that fails coercion. -/
inductive RawVal
  | num (q : ℚ)
  | corrupt
deriving DecidableEq, Repr

/-- One raw OHLCV row of the provider response (app.py line 34-43). -/
structure RawBar where
  ts : Nat
  open_ : RawVal
  high : RawVal
  low : RawVal
  close : RawVal
  volume : RawVal
deriving DecidableEq, Repr

/-- Result of `pd.to_numeric(c, errors="coerce")` on one field (line 53):
a non-numeric value becomes NaN, modelled as `none`. -/
def toNumeric : RawVal → Option ℚ
  | .num q => some q
  | .corrupt => none

/-- A normalized bar: every price field coerced, NaN kept as `none`. -/
structure NBar where
  ts : Nat
  open_ : Option ℚ
  high : Option ℚ
  low : Option ℚ
  close : Option ℚ
  volume : Option ℚ
deriving DecidableEq, Repr

/-- Numeric coercion of one row (app.py lines 52-53): every price field is
coerced independently; the row itself is never dropped. -/
def normalizeRow (r : RawBar) : NBar :=
  ⟨r.ts, toNumeric r.open_, toNumeric r.high, toNumeric r.low,
    toNumeric r.close, toNumeric r.volume⟩

/-- NSE session predicate (app.py lines 56-59): keep a bar iff its local
time-of-day is within 09:15 (= 555 minutes) and 15:30 (= 930 minutes),
both bounds inclusive. -/
def sessionOk (ts : Nat) : Bool :=
  decide (555 ≤ ts % 1440) && decide (ts % 1440 ≤ 930)

/-- The session filter of app.py lines 56-59. -/
def sessionFilter (bars : List NBar) : List NBar :=
  bars.filter (fun b => sessionOk b.ts)

/-- 15-minute bucket of a bar (`resample("15min")`, line 64): pandas floors
each timestamp to a 15-minute boundary counted from midnight; midnight is
itself a multiple of 15 minutes, so the bucket is `ts / 15`. -/
def bucketKey (b : NBar) : Nat := b.ts / 15

/-- Pandas GroupBy "first" aggregation with its NaN-skipping semantics:
the first non-NaN value of the column, NaN (`none`) if there is none. -/
def aggFirst (l : List (Option ℚ)) : Option ℚ := (l.filterMap id).head?

/-- Pandas GroupBy "last" aggregation: the last non-NaN value. -/
def aggLast (l : List (Option ℚ)) : Option ℚ := (l.filterMap id).getLast?

/-- Pandas GroupBy "max" aggregation: max over the non-NaN values. -/
def aggMax (l : List (Option ℚ)) : Option ℚ :=
  match l.filterMap id with
  | [] => none
  | x :: xs => some (xs.foldl max x)

/-- Pandas GroupBy "min" aggregation: min over the non-NaN values. -/
def aggMin (l : List (Option ℚ)) : Option ℚ :=
  match l.filterMap id with
  | [] => none
  | x :: xs => some (xs.foldl min x)

/-- Pandas GroupBy "sum" aggregation: NaNs count as zero, an all-NaN or
empty group sums to 0 (never NaN). -/
def aggSum (l : List (Option ℚ)) : ℚ := (l.filterMap id).sum

/-- One aggregated 15-minute bar (a row of `df15`, lines 62-74). -/
structure Row15 where
  ts : Nat
  open_ : ℚ
  high : ℚ
  low : ℚ
  close : ℚ
  volume : ℚ
deriving DecidableEq, Repr

/-- Aggregation of one 15-minute bucket followed by the `.dropna()` row test
(lines 65-72): the row survives iff each of open/high/low/close has at least
one non-NaN contributor (the volume sum is never NaN). An empty bucket has
no contributors at all, hence yields `none` here, exactly as pandas drops
the synthesized all-NaN row. -/
def aggBucket (k : Nat) (bars : List NBar) : Option Row15 :=
  let g := bars.filter (fun b => decide (bucketKey b = k))
  match aggFirst (g.map NBar.open_), aggMax (g.map NBar.high),
        aggMin (g.map NBar.low), aggLast (g.map NBar.close) with
  | some o, some h, some l, some c =>
      some ⟨15 * k, o, h, l, c, aggSum (g.map NBar.volume)⟩
  | _, _, _, _ => none

/-- The resampling step of lines 62-74: group bars by 15-minute bucket,
aggregate each bucket (first/max/min/last/sum), drop all-NaN rows, and
return the surviving rows in ascending bucket order (pandas emits the
resampled index sorted by time). -/
def resample15 (bars : List NBar) : List Row15 :=
  (((bars.map bucketKey).dedup).insertionSort (· ≤ ·)).filterMap
    (fun k => aggBucket k bars)

/-- A Python exception escaping `get_nifty_15min`. With an empty provider
result, `pd.DataFrame([])` has no columns, so `df["datetime"]` on line 44
raises an uncaught KeyError. -/
inductive PyExn
  | keyErrorDatetime
deriving DecidableEq, Repr

/-- The data pipeline of app.py lines 29-79 (fetching and tz re-labelling
abstracted away, see the module header): coerce fields, keep session bars,
resample to 15 minutes, then attach the compressed position column
`df15["x"] = range(len(df15))` of line 77, modelled by `List.enum`. -/
def get_nifty_15min (rows : List RawBar) : Except PyExn (List (Nat × Row15)) :=
  if rows.isEmpty then
    Except.error PyExn.keyErrorDatetime
  else
    Except.ok (resample15 (sessionFilter (rows.map normalizeRow))).enum

/-- Pandas `Series.ewm(span=s).mean()` with the library defaults
(`adjust=True`, `min_periods=0`): the running weighted numerator and
denominator recurrences num = (1-a)*num + x, den = (1-a)*den + 1, output
num/den at every position. -/
def ewmAux (a : ℚ) : List ℚ → ℚ → ℚ → List ℚ
  | [], _, _ => []
  | x :: xs, num, den =>
      let num2 := (1 - a) * num + x
      let den2 := (1 - a) * den + 1
      num2 / den2 :: ewmAux a xs num2 den2

/-- Pandas exponentially weighted mean of a series, defaults as in app.py. -/
def ewmMean (a : ℚ) (xs : List ℚ) : List ℚ := ewmAux a xs 0 0

/-- Decay parameter pandas derives from a span: alpha = 2 / (span + 1). -/
def alphaOfSpan (span : ℚ) : ℚ := 2 / (span + 1)

/-- The buy flag series of line 92: `(macd > 0) & (macd.shift(1) <= 0)`.
`shift(1)` puts NaN at position 0 and `NaN <= 0` is False, so position 0 is
never flagged. -/
def buySeries (m : List ℚ) : List Bool :=
  (List.range m.length).map (fun i =>
    decide ((0 : ℚ) < m[i]!) && if i = 0 then false else decide (m[i-1]! ≤ 0))

/-- The sell flag series of line 93: `(macd < 0) & (macd.shift(1) >= 0)`. -/
def sellSeries (m : List ℚ) : List Bool :=
  (List.range m.length).map (fun i =>
    decide (m[i]! < (0 : ℚ)) && if i = 0 then false else decide (0 ≤ m[i-1]!))

/-- The five series returned by `macd_signals` (app.py line 95). -/
structure MacdOut where
  macd : List ℚ
  signal : List ℚ
  hist : List ℚ
  buy : List Bool
  sell : List Bool
deriving DecidableEq, Repr

/-- The MACD engine of app.py lines 84-95: fast/slow pandas EWMs of the
close series (spans 12 and 26), their elementwise difference, the span-9
EWM of that difference, the histogram, and the zero-line buy/sell flags. -/
def macd_signals (closes : List ℚ) : MacdOut :=
  let exp1 := ewmMean (alphaOfSpan 12) closes
  let exp2 := ewmMean (alphaOfSpan 26) closes
  let macd := List.zipWith (fun x y => x - y) exp1 exp2
  let signal := ewmMean (alphaOfSpan 9) macd
  let hist := List.zipWith (fun x y => x - y) macd signal
  ⟨macd, signal, hist, buySeries macd, sellSeries macd⟩

/-- The two trend labels of app.py lines 108-113. -/
inductive Trend
  | bullish
  | bearish
deriving DecidableEq, Repr

/-- The signal summary assembled by `get_current_signal` (lines 100-125):
trend is BULLISH iff the latest MACD value strictly exceeds the latest
signal-line value, plus the latest buy/sell flags. -/
structure CurrentSignal where
  trend : Trend
  buy_signal : Bool
  sell_signal : Bool
deriving DecidableEq, Repr

/-- The latest-point comparison of app.py lines 100-125 as a function of
the close series handed to `macd_signals` (the code reads `iloc[-1]`, i.e.
the last element of each series). -/
def get_current_signal (closes : List ℚ) : CurrentSignal :=
  let r := macd_signals closes
  ⟨if r.signal.getLast! < r.macd.getLast! then Trend.bullish else Trend.bearish,
    r.buy.getLast!, r.sell.getLast!⟩

/-- A session bar with all price fields numeric, the shape the spec's data
model gives to SessionBar (timestamps strictly increasing, no nulls). -/
structure SBar where
  ts : Nat
  open_ : ℚ
  high : ℚ
  low : ℚ
  close : ℚ
  volume : ℚ
deriving DecidableEq, Repr

/-- View of a clean session bar as a normalized bar (every field present). -/
def SBar.toN (b : SBar) : NBar :=
  ⟨b.ts, some b.open_, some b.high, some b.low, some b.close, some b.volume⟩

/-- Maximum of a list of rationals, seeded with the head (0 on empty,
which is never used below). -/
def qmaxD : List ℚ → ℚ
  | [] => 0
  | x :: xs => xs.foldl max x

/-- Minimum of a list of rationals, seeded with the head. -/
def qminD : List ℚ → ℚ
  | [] => 0
  | x :: xs => xs.foldl min x

/-- A normalized bar every one of whose five price fields failed coercion. -/
def allFieldsCorrupt (b : NBar) : Bool :=
  b.open_.isNone && b.high.isNone && b.low.isNone &&
    b.close.isNone && b.volume.isNone

/-- The session bars contributing to bucket `k`: those whose timestamp lies
in the half-open window [15k, 15k + 15). -/
def contrib (k : Nat) (bars : List SBar) : List SBar :=
  bars.filter (fun b => decide (b.ts / 15 = k))

/-! ## General list helpers -/

/-- Out-of-range panicking index on the empty list gives the default. -/
theorem getElemBang_nil {α : Type} [Inhabited α] (i : Nat) :
    ([] : List α)[i]! = default := by
  rw [getElem!_neg ([] : List α) i (by simp)]

/-- Head of a cons under the panicking index. -/
theorem getElemBang_cons_zero {α : Type} [Inhabited α] (a : α) (l : List α) :
    (a :: l)[0]! = a := by
  rw [getElem!_pos (a :: l) 0 (by simp)]
  simp

/-- Tail step of the panicking index, valid also out of range. -/
theorem getElemBang_cons_succ {α : Type} [Inhabited α] (a : α) (l : List α)
    (i : Nat) : (a :: l)[i+1]! = l[i]! := by
  by_cases h : i < l.length
  · rw [getElem!_pos (a :: l) (i + 1) (by simpa using h), getElem!_pos l i h]
    simp
  · rw [getElem!_neg (a :: l) (i + 1) (by simpa using h), getElem!_neg l i h]

/-- Indexing a map over `List.range` evaluates the mapped function. -/
theorem getElemBang_map_range {α : Type} [Inhabited α] (f : Nat → α) (n i : Nat)
    (h : i < n) : ((List.range n).map f)[i]! = f i := by
  have hlen : i < ((List.range n).map f).length := by simp [h]
  rw [getElem!_pos ((List.range n).map f) i hlen]
  simp

/-- `filterMap id` undoes a `map some`. -/
theorem filterMap_id_map_some (l : List ℚ) : (l.map some).filterMap id = l := by
  induction l with
  | nil => rfl
  | cons x t ih => simp [List.filterMap_cons, ih]

/-! ## Length lemmas for the MACD engine -/

/-- The EWM worker preserves the series length. -/
theorem ewmAux_length (a : ℚ) (xs : List ℚ) (num den : ℚ) :
    (ewmAux a xs num den).length = xs.length := by
  induction xs generalizing num den with
  | nil => rfl
  | cons x t ih => simp [ewmAux, ih]

/-- A pandas EWM has the length of its input series. -/
theorem ewmMean_length (a : ℚ) (xs : List ℚ) :
    (ewmMean a xs).length = xs.length := ewmAux_length a xs 0 0

/-- The buy flag series has the length of the MACD series. -/
theorem buySeries_length (m : List ℚ) : (buySeries m).length = m.length := by
  simp [buySeries]

/-- The sell flag series has the length of the MACD series. -/
theorem sellSeries_length (m : List ℚ) : (sellSeries m).length = m.length := by
  simp [sellSeries]

/-- The MACD line has the length of the close series. -/
theorem macd_length (closes : List ℚ) :
    (macd_signals closes).macd.length = closes.length := by
  simp [macd_signals, List.length_zipWith, ewmMean_length]

/-- The signal line has the length of the close series. -/
theorem signal_length (closes : List ℚ) :
    (macd_signals closes).signal.length = closes.length := by
  simp [macd_signals, ewmMean_length, List.length_zipWith]

/-- The histogram has the length of the close series. -/
theorem hist_length (closes : List ℚ) :
    (macd_signals closes).hist.length = closes.length := by
  simp [macd_signals, ewmMean_length, List.length_zipWith]

/-! ## C1 -/

/-- C1: zero-line crossover detection. For every MACD series and every
position `i ≥ 1`, the BUY flag at `i` holds iff `macd[i] > 0` and
`macd[i-1] ≤ 0`, the SELL flag at `i` holds iff `macd[i] < 0` and
`macd[i-1] ≥ 0`, and position 0 carries no BUY and no SELL flag. -/
theorem crossover_zero_line (m : List ℚ) (i : Nat) (h1 : 1 ≤ i)
    (h2 : i < m.length) :
    ((buySeries m)[i]! = true ↔ (0 < m[i]! ∧ m[i-1]! ≤ 0)) ∧
    ((sellSeries m)[i]! = true ↔ (m[i]! < 0 ∧ 0 ≤ m[i-1]!)) ∧
    (buySeries m)[0]! = false ∧ (sellSeries m)[0]! = false := by
  have hi0 : i ≠ 0 := by omega
  have h0 : 0 < m.length := by omega
  refine ⟨?_, ?_, ?_, ?_⟩
  · rw [buySeries, getElemBang_map_range _ _ _ h2]
    simp [hi0]
  · rw [sellSeries, getElemBang_map_range _ _ _ h2]
    simp [hi0]
  · rw [buySeries, getElemBang_map_range _ _ _ h0]
    simp
  · rw [sellSeries, getElemBang_map_range _ _ _ h0]
    simp

/-- Witness for C1 at the MACD series `[-1, 1]`, position 1. -/
theorem crossover_zero_line_witness :
    (1 ≤ 1 ∧ 1 < ([-1, 1] : List ℚ).length) ∧
    (((buySeries [-1, 1])[1]! = true ↔
        (0 < ([-1, 1] : List ℚ)[1]! ∧ ([-1, 1] : List ℚ)[0]! ≤ 0)) ∧
      ((sellSeries [-1, 1])[1]! = true ↔
        (([-1, 1] : List ℚ)[1]! < 0 ∧ 0 ≤ ([-1, 1] : List ℚ)[0]!)) ∧
      (buySeries [-1, 1])[0]! = false ∧ (sellSeries [-1, 1])[0]! = false) :=
  ⟨⟨le_refl 1, by norm_num⟩, crossover_zero_line [-1, 1] 1 (le_refl 1) (by norm_num)⟩

/-! ## C3 -/

/-- Closed form of the pandas adjust=True EWM worker: position `i` of the
output divides the weighted sum of the inputs (plus the decayed carried-in
numerator) by the weighted count (plus the decayed carried-in denominator). -/
theorem ewmAux_closed_form (a : ℚ) (xs : List ℚ) (num den : ℚ) (i : Nat)
    (h : i < xs.length) :
    (ewmAux a xs num den)[i]! =
      ((1 - a) ^ (i + 1) * num + ∑ j ∈ Finset.range (i + 1), (1 - a) ^ j * xs[i - j]!) /
      ((1 - a) ^ (i + 1) * den + ∑ j ∈ Finset.range (i + 1), (1 - a) ^ j) := by
  induction xs generalizing num den i with
  | nil => simp at h
  | cons x t ih =>
    cases i with
    | zero =>
      simp [ewmAux, Finset.sum_range_one, getElemBang_cons_zero]
    | succ n =>
      have hn : n < t.length := by simpa using h
      simp only [ewmAux, getElemBang_cons_succ]
      rw [ih _ _ _ hn]
      have hrest : ∀ j ∈ Finset.range (n + 1),
          (1 - a) ^ j * (x :: t)[n + 1 - j]! = (1 - a) ^ j * t[n - j]! := by
        intro j hj
        have hj' : j ≤ n := by simpa [Nat.lt_succ_iff] using hj
        have hidx : n + 1 - j = (n - j) + 1 := by omega
        rw [hidx, getElemBang_cons_succ]
      have hsum : ∑ j ∈ Finset.range (n + 1 + 1), (1 - a) ^ j * (x :: t)[n + 1 - j]! =
          (∑ j ∈ Finset.range (n + 1), (1 - a) ^ j * t[n - j]!) + (1 - a) ^ (n + 1) * x := by
        rw [Finset.sum_range_succ, Finset.sum_congr rfl hrest]
        simp [getElemBang_cons_zero]
      have hsum1 : ∑ j ∈ Finset.range (n + 1 + 1), (1 - a) ^ j =
          (∑ j ∈ Finset.range (n + 1), (1 - a) ^ j) + (1 - a) ^ (n + 1) :=
        Finset.sum_range_succ _ _
      rw [hsum, hsum1]
      congr 1 <;> ring

/-- Counterexample for C3: the engine's fast EMA (pandas default
`adjust=True`) violates the claimed recursion `EMA[1] = a*close[1] +
(1-a)*EMA[0]` already on the two-point series `[0, 1]`: the code yields
13/24 where the recursion demands 2/13. -/
theorem ema_not_standard_recursive :
    ¬ (ewmMean (alphaOfSpan 12) [0, 1])[1]! =
        alphaOfSpan 12 * 1 + (1 - alphaOfSpan 12) * (ewmMean (alphaOfSpan 12) [0, 1])[0]! := by
  simp only [ewmMean, ewmAux, alphaOfSpan, getElemBang_cons_zero, getElemBang_cons_succ]
  norm_num

/-- C3 (amended): the fast/slow/signal EWMs computed by the MACD engine use
the pandas adjust=True weighting, i.e. position `i` equals the ratio
(sum of (1-a)^j * close[i-j] for j = 0..i) / (sum of (1-a)^j for j = 0..i)
with a = 2/(span+1); the seed EMA[0] = close[0] does hold. -/
theorem ema_adjusted_weighting (a : ℚ) (xs : List ℚ) (i : Nat)
    (h : i < xs.length) :
    (ewmMean a xs)[i]! =
      (∑ j ∈ Finset.range (i + 1), (1 - a) ^ j * xs[i - j]!) /
      (∑ j ∈ Finset.range (i + 1), (1 - a) ^ j) ∧
    (0 < xs.length → (ewmMean a xs)[0]! = xs[0]!) := by
  constructor
  · rw [ewmMean, ewmAux_closed_form a xs 0 0 i h]
    simp
  · intro h0
    rw [ewmMean, ewmAux_closed_form a xs 0 0 0 h0]
    simp [Finset.sum_range_one]

/-- Witness for the amended C3 at a = 1/2, xs = [3, 5], i = 1. -/
theorem ema_adjusted_weighting_witness :
    (1 < ([3, 5] : List ℚ).length) ∧
    ((ewmMean (1/2) [3, 5])[1]! =
      (∑ j ∈ Finset.range (1 + 1), (1 - 1/2 : ℚ) ^ j * ([3, 5] : List ℚ)[1 - j]!) /
      (∑ j ∈ Finset.range (1 + 1), (1 - 1/2 : ℚ) ^ j) ∧
    (0 < ([3, 5] : List ℚ).length → (ewmMean (1/2) [3, 5])[0]! = ([3, 5] : List ℚ)[0]!)) :=
  ⟨by norm_num, ema_adjusted_weighting (1/2) [3, 5] 1 (by norm_num)⟩

/-! ## C4 -/

/-- Counterexample for C4: a 10-bar close series fed to the MACD engine
produces full-length numeric MACD/signal/histogram series; the code has no
"insufficient data" branch at all. -/
theorem macd_ten_bars_numeric_output :
    (macd_signals [1, 2, 3, 4, 5, 6, 7, 8, 9, 10]).macd.length = 10 ∧
    (macd_signals [1, 2, 3, 4, 5, 6, 7, 8, 9, 10]).signal.length = 10 ∧
    (macd_signals [1, 2, 3, 4, 5, 6, 7, 8, 9, 10]).hist.length = 10 := by
  refine ⟨?_, ?_, ?_⟩ <;>
    simp [macd_length, signal_length, hist_length]

/-- C4 (amended): `macd_signals` enforces no minimum-length floor; every
input series below the 20-bar floor still yields numeric MACD, signal,
histogram, buy and sell series of exactly the input length. -/
theorem macd_no_minimum_floor (closes : List ℚ) (_hshort : closes.length < 20) :
    (macd_signals closes).macd.length = closes.length ∧
    (macd_signals closes).signal.length = closes.length ∧
    (macd_signals closes).hist.length = closes.length ∧
    (macd_signals closes).buy.length = closes.length ∧
    (macd_signals closes).sell.length = closes.length := by
  refine ⟨macd_length closes, signal_length closes, hist_length closes, ?_, ?_⟩ <;>
    simp [macd_signals, buySeries_length, sellSeries_length, List.length_zipWith,
      ewmMean_length]

/-- Witness for the amended C4 at the 10-bar series 1..10. -/
theorem macd_no_minimum_floor_witness :
    (([1, 2, 3, 4, 5, 6, 7, 8, 9, 10] : List ℚ).length < 20) ∧
    ((macd_signals [1, 2, 3, 4, 5, 6, 7, 8, 9, 10]).macd.length =
        ([1, 2, 3, 4, 5, 6, 7, 8, 9, 10] : List ℚ).length ∧
     (macd_signals [1, 2, 3, 4, 5, 6, 7, 8, 9, 10]).signal.length =
        ([1, 2, 3, 4, 5, 6, 7, 8, 9, 10] : List ℚ).length ∧
     (macd_signals [1, 2, 3, 4, 5, 6, 7, 8, 9, 10]).hist.length =
        ([1, 2, 3, 4, 5, 6, 7, 8, 9, 10] : List ℚ).length ∧
     (macd_signals [1, 2, 3, 4, 5, 6, 7, 8, 9, 10]).buy.length =
        ([1, 2, 3, 4, 5, 6, 7, 8, 9, 10] : List ℚ).length ∧
     (macd_signals [1, 2, 3, 4, 5, 6, 7, 8, 9, 10]).sell.length =
        ([1, 2, 3, 4, 5, 6, 7, 8, 9, 10] : List ℚ).length) :=
  ⟨by norm_num, macd_no_minimum_floor [1, 2, 3, 4, 5, 6, 7, 8, 9, 10] (by norm_num)⟩

/-! ## C5 -/

/-- Counterexample for C5: with zero provider rows the pipeline raises an
uncaught KeyError (the empty DataFrame has no "datetime" column); it does
not return an explicit no-data result. -/
theorem empty_rows_raise_key_error_exn :
    get_nifty_15min [] = Except.error PyExn.keyErrorDatetime := rfl

/-- C5 (amended): the pipeline fails exactly on an empty provider result,
and that failure is the uncaught KeyError exception of line 44, the code's
only failure mode; there is no explicit "no data" result anywhere. -/
theorem pipeline_failure_iff_empty (rows : List RawBar) :
    (∃ e, get_nifty_15min rows = Except.error e) ↔ rows = [] := by
  cases rows with
  | nil =>
    refine ⟨fun _ => rfl, fun _ => ⟨PyExn.keyErrorDatetime, rfl⟩⟩
  | cons r t => simp [get_nifty_15min]

/-! ## C7 -/

/-- C7: gap-compression indexing. Every successful pipeline output carries
position values exactly 0, 1, ..., n-1 in output order. -/
theorem positions_dense_from_zero (rows : List RawBar)
    (out : List (Nat × Row15)) (h : get_nifty_15min rows = Except.ok out) :
    out.map Prod.fst = List.range out.length := by
  unfold get_nifty_15min at h
  by_cases hrows : rows.isEmpty
  · rw [if_pos hrows] at h
    cases h
  · rw [if_neg hrows] at h
    cases h
    rw [List.enum_map_fst, List.enum_length]

/-- Witness for C7 on a single in-session bar. -/
theorem positions_dense_from_zero_witness :
    get_nifty_15min [⟨555, RawVal.num 1, RawVal.num 2, RawVal.num 1,
        RawVal.num 1, RawVal.num 1⟩] =
      Except.ok [(0, ⟨555, 1, 2, 1, 1, 1⟩)] ∧
    ([((0 : Nat), (⟨555, 1, 2, 1, 1, 1⟩ : Row15))]).map Prod.fst =
      List.range ([((0 : Nat), (⟨555, 1, 2, 1, 1, 1⟩ : Row15))]).length := by
  have h : get_nifty_15min [⟨555, RawVal.num 1, RawVal.num 2, RawVal.num 1,
      RawVal.num 1, RawVal.num 1⟩] = Except.ok [(0, ⟨555, 1, 2, 1, 1, 1⟩)] := by
    simp [get_nifty_15min, sessionFilter, sessionOk, normalizeRow, toNumeric,
      resample15, bucketKey, aggBucket, aggFirst, aggLast, aggMax, aggMin,
      aggSum, List.insertionSort, List.orderedInsert]
  exact ⟨h, positions_dense_from_zero _ _ h⟩

/-! ## C8 -/

/-- Panicking index of a zipWith at an in-range position. -/
theorem getElemBang_zipWith (f : ℚ → ℚ → ℚ) (as bs : List ℚ) (i : Nat)
    (ha : i < as.length) (hb : i < bs.length) :
    (List.zipWith f as bs)[i]! = f as[i]! bs[i]! := by
  have hz : i < (List.zipWith f as bs).length := by
    simp [List.length_zipWith]
    omega
  rw [getElem!_pos (List.zipWith f as bs) i hz, getElem!_pos as i ha,
    getElem!_pos bs i hb]
  exact List.getElem_zipWith

/-- C8: alignment of the MACD engine's output. For every close series the
MACD, signal and histogram series have exactly the input's length (no head
truncation), and position by position MACD is the fast EWM minus the slow
EWM while the histogram is MACD minus signal. -/
theorem macd_series_alignment (closes : List ℚ) (i : Nat) :
    ((macd_signals closes).macd.length = closes.length ∧
     (macd_signals closes).signal.length = closes.length ∧
     (macd_signals closes).hist.length = closes.length) ∧
    (i < closes.length →
      (macd_signals closes).macd[i]! =
        (ewmMean (alphaOfSpan 12) closes)[i]! - (ewmMean (alphaOfSpan 26) closes)[i]! ∧
      (macd_signals closes).hist[i]! =
        (macd_signals closes).macd[i]! - (macd_signals closes).signal[i]!) := by
  refine ⟨⟨macd_length closes, signal_length closes, hist_length closes⟩, fun hi => ⟨?_, ?_⟩⟩
  · show (List.zipWith (fun x y => x - y) (ewmMean (alphaOfSpan 12) closes)
      (ewmMean (alphaOfSpan 26) closes))[i]! = _
    rw [getElemBang_zipWith _ _ _ i (by rw [ewmMean_length]; exact hi)
      (by rw [ewmMean_length]; exact hi)]
  · show (List.zipWith (fun x y => x - y) (macd_signals closes).macd
      (macd_signals closes).signal)[i]! = _
    rw [getElemBang_zipWith _ _ _ i (by rw [macd_length]; exact hi)
      (by rw [signal_length]; exact hi)]

/-- Witness for C8 at the two-bar series [1, 2], position 1. -/
theorem macd_series_alignment_witness :
    (1 < ([1, 2] : List ℚ).length) ∧
    (((macd_signals [1, 2]).macd.length = ([1, 2] : List ℚ).length ∧
      (macd_signals [1, 2]).signal.length = ([1, 2] : List ℚ).length ∧
      (macd_signals [1, 2]).hist.length = ([1, 2] : List ℚ).length) ∧
     ((macd_signals [1, 2]).macd[1]! =
        (ewmMean (alphaOfSpan 12) [1, 2])[1]! - (ewmMean (alphaOfSpan 26) [1, 2])[1]! ∧
      (macd_signals [1, 2]).hist[1]! =
        (macd_signals [1, 2]).macd[1]! - (macd_signals [1, 2]).signal[1]!)) :=
  ⟨by norm_num,
    ⟨(macd_series_alignment [1, 2] 1).1, (macd_series_alignment [1, 2] 1).2 (by norm_num)⟩⟩

/-! ## C9 -/

/-- C9: signal-line strategy. For every non-empty close series the reported
trend is BULLISH iff the latest MACD value strictly exceeds the latest
signal-line value, and BEARISH otherwise — a pure level comparison at the
latest position. -/
theorem trend_is_latest_level_comparison (closes : List ℚ) (_h : closes ≠ []) :
    ((get_current_signal closes).trend = Trend.bullish ↔
      (macd_signals closes).signal.getLast! < (macd_signals closes).macd.getLast!) ∧
    ((get_current_signal closes).trend = Trend.bearish ↔
      ¬ (macd_signals closes).signal.getLast! < (macd_signals closes).macd.getLast!) := by
  by_cases hc : (macd_signals closes).signal.getLast! < (macd_signals closes).macd.getLast! <;>
    simp [get_current_signal, hc]

/-- Witness for C9 at the one-bar series [1]. -/
theorem trend_is_latest_level_comparison_witness :
    (([1] : List ℚ) ≠ []) ∧
    (((get_current_signal [1]).trend = Trend.bullish ↔
        (macd_signals [1]).signal.getLast! < (macd_signals [1]).macd.getLast!) ∧
     ((get_current_signal [1]).trend = Trend.bearish ↔
        ¬ (macd_signals [1]).signal.getLast! < (macd_signals [1]).macd.getLast!)) :=
  ⟨by simp, trend_is_latest_level_comparison [1] (by simp)⟩

/-! ## C10 -/

/-- C10: the session filter is idempotent — filtering an already-filtered
sequence yields the same sequence — and it keeps a bar iff its local
time-of-day lies in the inclusive window 09:15 (555 min) to 15:30 (930 min). -/
theorem session_filter_idempotent (bars : List NBar) :
    sessionFilter (sessionFilter bars) = sessionFilter bars ∧
    ∀ b : NBar, b ∈ sessionFilter bars ↔
      b ∈ bars ∧ (555 ≤ b.ts % 1440 ∧ b.ts % 1440 ≤ 930) := by
  constructor
  · simp [sessionFilter, List.filter_filter]
  · intro b
    simp [sessionFilter, List.mem_filter, sessionOk, and_assoc]

/-! ## C2 -/

/-- Filtering a mapped-in clean bar list by bucket equals mapping the
filtered clean bars. -/
theorem bucket_commute (bars : List SBar) (k : Nat) :
    (bars.map SBar.toN).filter (fun b => decide (bucketKey b = k)) =
      (contrib k bars).map SBar.toN := by
  rw [List.filter_map]
  rfl

/-- A clean column seen through `SBar.toN` is the plain column wrapped in
`some`. -/
theorem toN_col (g : List SBar) (fN : NBar → Option ℚ) (fS : SBar → ℚ)
    (hf : ∀ b : SBar, fN (SBar.toN b) = some (fS b)) :
    (g.map SBar.toN).map fN = (g.map fS).map some := by
  induction g with
  | nil => rfl
  | cons b t ih => simp [hf, ih]

/-- "first" on an all-clean column is the plain head. -/
theorem aggFirst_clean (l : List ℚ) : aggFirst (l.map some) = l.head? := by
  unfold aggFirst
  rw [filterMap_id_map_some]

/-- "last" on an all-clean column is the plain last element. -/
theorem aggLast_clean (l : List ℚ) : aggLast (l.map some) = l.getLast? := by
  unfold aggLast
  rw [filterMap_id_map_some]

/-- "sum" on an all-clean column is the plain sum. -/
theorem aggSum_clean (l : List ℚ) : aggSum (l.map some) = l.sum := by
  unfold aggSum
  rw [filterMap_id_map_some]

/-- "max" on a non-empty all-clean column is the plain maximum. -/
theorem aggMax_clean (x : ℚ) (t : List ℚ) :
    aggMax (some x :: t.map some) = some (qmaxD (x :: t)) := by
  unfold aggMax
  rw [show (some x :: t.map some).filterMap id = x :: t from filterMap_id_map_some (x :: t)]
  rfl

/-- "min" on a non-empty all-clean column is the plain minimum. -/
theorem aggMin_clean (x : ℚ) (t : List ℚ) :
    aggMin (some x :: t.map some) = some (qminD (x :: t)) := by
  unfold aggMin
  rw [show (some x :: t.map some).filterMap id = x :: t from filterMap_id_map_some (x :: t)]
  rfl

/-- Aggregating the bucket of a clean bar list with a non-empty contributor
set produces exactly the first-open / max-high / min-low / last-close /
sum-volume row stamped with the bucket start. -/
theorem aggBucket_clean (bars : List SBar) (k : Nat) (b0 : SBar) (t : List SBar)
    (hg : contrib k bars = b0 :: t) (c : ℚ)
    (hc : ((b0 :: t).map SBar.close).getLast? = some c) :
    aggBucket k (bars.map SBar.toN) =
      some ⟨15 * k, b0.open_, qmaxD ((b0 :: t).map SBar.high),
        qminD ((b0 :: t).map SBar.low), c, ((b0 :: t).map SBar.volume).sum⟩ := by
  simp only [aggBucket]
  rw [bucket_commute bars k, hg]
  rw [toN_col (b0 :: t) NBar.open_ SBar.open_ (fun b => rfl),
    toN_col (b0 :: t) NBar.high SBar.high (fun b => rfl),
    toN_col (b0 :: t) NBar.low SBar.low (fun b => rfl),
    toN_col (b0 :: t) NBar.close SBar.close (fun b => rfl),
    toN_col (b0 :: t) NBar.volume SBar.volume (fun b => rfl)]
  rw [aggFirst_clean, aggLast_clean, aggSum_clean, hc]
  simp only [List.map_cons]
  rw [aggMax_clean b0.high (List.map SBar.high t), aggMin_clean b0.low (List.map SBar.low t)]
  rfl

/-- Membership in the sorted deduplicated key list is existence of a
contributing bar. -/
theorem mem_keys_iff (bars : List SBar) (k : Nat) :
    k ∈ (((bars.map SBar.toN).map bucketKey).dedup).insertionSort (· ≤ ·) ↔
      ∃ b ∈ bars, b.ts / 15 = k := by
  rw [(List.perm_insertionSort _ _).mem_iff, List.mem_dedup]
  have hmm : (bars.map SBar.toN).map bucketKey = bars.map (fun b => b.ts / 15) := by
    rw [List.map_map]
    rfl
  rw [hmm, List.mem_map]

/-- The contributor list is non-empty exactly when some bar maps to the
bucket. -/
theorem contrib_ne_nil_iff (bars : List SBar) (k : Nat) :
    contrib k bars ≠ [] ↔ ∃ b ∈ bars, b.ts / 15 = k := by
  constructor
  · intro h
    obtain ⟨b, hb⟩ := List.exists_mem_of_ne_nil _ h
    have hb' := List.mem_filter.mp hb
    exact ⟨b, hb'.1, by simpa using hb'.2⟩
  · rintro ⟨b, hb, hk⟩
    exact List.ne_nil_of_mem (List.mem_filter.mpr ⟨hb, by simpa using hk⟩)

/-- C2: resampler aggregation. For every clean session bar list (strictly
increasing timestamps) and every bucket with at least one contributing bar,
the output contains a bar stamped with the bucket start whose open is the
first contributor's open, high the maximum high, low the minimum low,
close the last contributor's close and volume the sum of volumes; and every
output bar's bucket has at least one contributing bar (empty buckets are
never synthesized). -/
theorem resampler_bucket_aggregation (bars : List SBar)
    (_hsorted : bars.Pairwise (fun x y => x.ts < y.ts)) (k : Nat)
    (hne : contrib k bars ≠ []) :
    (∃ r ∈ resample15 (bars.map SBar.toN),
        r.ts = 15 * k ∧
        some r.open_ = (contrib k bars).head?.map SBar.open_ ∧
        r.high = qmaxD ((contrib k bars).map SBar.high) ∧
        r.low = qminD ((contrib k bars).map SBar.low) ∧
        some r.close = (contrib k bars).getLast?.map SBar.close ∧
        r.volume = ((contrib k bars).map SBar.volume).sum) ∧
    (∀ r ∈ resample15 (bars.map SBar.toN), contrib (r.ts / 15) bars ≠ []) := by
  constructor
  · obtain ⟨b0, t, hg⟩ := List.exists_cons_of_ne_nil hne
    have hcne : ((b0 :: t).map SBar.close) ≠ [] := by simp
    obtain ⟨c, hc⟩ : ∃ c, ((b0 :: t).map SBar.close).getLast? = some c :=
      ⟨_, List.getLast?_eq_getLast _ hcne⟩
    have hagg := aggBucket_clean bars k b0 t hg c hc
    have hkmem : k ∈ (((bars.map SBar.toN).map bucketKey).dedup).insertionSort (· ≤ ·) := by
      rw [mem_keys_iff]
      exact (contrib_ne_nil_iff bars k).mp hne
    refine ⟨_, List.mem_filterMap.mpr ⟨k, hkmem, hagg⟩, rfl, ?_, ?_, ?_, ?_, ?_⟩
    · rw [hg]
      simp
    · rw [hg]
    · rw [hg]
    · rw [hg]
      rw [List.getLast?_map] at hc
      exact hc.symm
    · rw [hg]
  · intro r hr
    obtain ⟨k', hk'mem, hk'agg⟩ := List.mem_filterMap.mp hr
    have hk'copy := hk'agg
    have hts : r.ts = 15 * k' := by
      simp only [aggBucket] at hk'copy
      split at hk'copy
      · cases hk'copy
        rfl
      · cases hk'copy
    have hne' : contrib k' bars ≠ [] := by
      intro hempty
      simp only [aggBucket] at hk'agg
      rw [bucket_commute bars k', hempty] at hk'agg
      simp [aggFirst] at hk'agg
    have h15 : 15 * k' / 15 = k' := by omega
    rw [hts, h15]
    exact hne'

/-- Witness for C2: two bars in bucket 37 (09:15 and 09:20). -/
theorem resampler_bucket_aggregation_witness :
    (([⟨555, 1, 2, 1, 1, 1⟩, ⟨560, 3, 4, 0, 5, 2⟩] : List SBar).Pairwise
        (fun x y => x.ts < y.ts) ∧
      contrib 37 [⟨555, 1, 2, 1, 1, 1⟩, ⟨560, 3, 4, 0, 5, 2⟩] ≠ []) ∧
    ((∃ r ∈ resample15 (([⟨555, 1, 2, 1, 1, 1⟩, ⟨560, 3, 4, 0, 5, 2⟩] : List SBar).map SBar.toN),
        r.ts = 15 * 37 ∧
        some r.open_ = (contrib 37 [⟨555, 1, 2, 1, 1, 1⟩, ⟨560, 3, 4, 0, 5, 2⟩]).head?.map SBar.open_ ∧
        r.high = qmaxD ((contrib 37 [⟨555, 1, 2, 1, 1, 1⟩, ⟨560, 3, 4, 0, 5, 2⟩]).map SBar.high) ∧
        r.low = qminD ((contrib 37 [⟨555, 1, 2, 1, 1, 1⟩, ⟨560, 3, 4, 0, 5, 2⟩]).map SBar.low) ∧
        some r.close = (contrib 37 [⟨555, 1, 2, 1, 1, 1⟩, ⟨560, 3, 4, 0, 5, 2⟩]).getLast?.map SBar.close ∧
        r.volume = ((contrib 37 [⟨555, 1, 2, 1, 1, 1⟩, ⟨560, 3, 4, 0, 5, 2⟩]).map SBar.volume).sum) ∧
      (∀ r ∈ resample15 (([⟨555, 1, 2, 1, 1, 1⟩, ⟨560, 3, 4, 0, 5, 2⟩] : List SBar).map SBar.toN),
        contrib (r.ts / 15) [⟨555, 1, 2, 1, 1, 1⟩, ⟨560, 3, 4, 0, 5, 2⟩] ≠ [])) :=
  ⟨⟨by decide, by simp [contrib]⟩,
    resampler_bucket_aggregation [⟨555, 1, 2, 1, 1, 1⟩, ⟨560, 3, 4, 0, 5, 2⟩]
      (by decide) 37 (by simp [contrib])⟩

/-! ## C6 -/

/-- Filtering by a row predicate commutes with filtering by bucket. -/
theorem filter_comm_bucket (bars : List NBar) (p : NBar → Bool) (k : Nat) :
    (bars.filter p).filter (fun b => decide (bucketKey b = k)) =
      (bars.filter (fun b => decide (bucketKey b = k))).filter p := by
  rw [List.filter_filter, List.filter_filter]
  exact List.filter_congr (fun b _ => Bool.and_comm _ _)

/-- Dropping rows whose column value is NaN anyway does not change the
NaN-skipping view of the column. -/
theorem filterMap_id_ignore (g : List NBar) (f : NBar → Option ℚ)
    (p : NBar → Bool) (hp : ∀ b : NBar, p b = false → f b = none) :
    ((g.filter p).map f).filterMap id = (g.map f).filterMap id := by
  induction g with
  | nil => rfl
  | cons b t ih =>
    cases hpb : p b with
    | true =>
      cases hfb : f b <;>
        simp [List.filter_cons, hpb, List.filterMap_cons, hfb, ih]
    | false =>
      have hnone := hp b hpb
      simp [List.filter_cons, hpb, List.filterMap_cons, hnone, ih]

/-- A fully corrupt row has every field equal to `none`. -/
theorem allFieldsCorrupt_eq (b : NBar) (h : allFieldsCorrupt b = true) :
    b.open_ = none ∧ b.high = none ∧ b.low = none ∧ b.close = none ∧
      b.volume = none := by
  simp [allFieldsCorrupt, Option.isNone_iff_eq_none] at h
  tauto

/-- Counterexample for C6: a row whose open fails coercion is not dropped
entirely — its numeric high/low/close/volume still flow into the bucket
aggregate, so removing it changes the output (high 100 and low 1 come from
the corrupt row). -/
theorem corrupt_row_still_contributes :
    get_nifty_15min
      [⟨555, RawVal.corrupt, RawVal.num 100, RawVal.num 1, RawVal.num 10, RawVal.num 5⟩,
       ⟨560, RawVal.num 2, RawVal.num 3, RawVal.num 2, RawVal.num 3, RawVal.num 1⟩] =
      Except.ok [(0, ⟨555, 2, 100, 1, 3, 6⟩)] ∧
    get_nifty_15min
      [⟨560, RawVal.num 2, RawVal.num 3, RawVal.num 2, RawVal.num 3, RawVal.num 1⟩] =
      Except.ok [(0, ⟨555, 2, 3, 2, 3, 1⟩)] ∧
    get_nifty_15min
      [⟨555, RawVal.corrupt, RawVal.num 100, RawVal.num 1, RawVal.num 10, RawVal.num 5⟩,
       ⟨560, RawVal.num 2, RawVal.num 3, RawVal.num 2, RawVal.num 3, RawVal.num 1⟩] ≠
    get_nifty_15min
      [⟨560, RawVal.num 2, RawVal.num 3, RawVal.num 2, RawVal.num 3, RawVal.num 1⟩] := by
  refine ⟨?_, ?_, ?_⟩ <;>
    simp [get_nifty_15min, sessionFilter, sessionOk, normalizeRow, toNumeric,
      resample15, bucketKey, aggBucket, aggFirst, aggLast, aggMax, aggMin,
      aggSum, List.insertionSort, List.orderedInsert, max_def, min_def]
  norm_num

/-- C6 (amended): the normalizer drops no rows and preserves input order
(the timestamp sequence is unchanged); a price field that fails coercion
becomes NaN and is skipped field-wise by the bucket aggregation, so only a
row with every field non-numeric contributes nothing — removing all such
rows leaves every bucket aggregate unchanged, while a partially corrupt
row still contributes its numeric fields. -/
theorem normalizer_keeps_rows_drops_fields (rows : List RawBar)
    (bars : List NBar) (k : Nat) :
    (rows.map normalizeRow).map NBar.ts = rows.map RawBar.ts ∧
    aggBucket k (bars.filter (fun b => !allFieldsCorrupt b)) = aggBucket k bars := by
  constructor
  · rw [List.map_map]
    rfl
  · simp only [aggBucket]
    rw [filter_comm_bucket]
    have hbase : ∀ f : NBar → Option ℚ,
        (∀ b : NBar, allFieldsCorrupt b = true → f b = none) →
        (((bars.filter (fun b => decide (bucketKey b = k))).filter
            (fun b => !allFieldsCorrupt b)).map f).filterMap id =
          ((bars.filter (fun b => decide (bucketKey b = k))).map f).filterMap id := by
      intro f hf
      apply filterMap_id_ignore
      intro b hb
      exact hf b (by simpa using hb)
    have ho := hbase NBar.open_ (fun b hb => (allFieldsCorrupt_eq b hb).1)
    have hh := hbase NBar.high (fun b hb => (allFieldsCorrupt_eq b hb).2.1)
    have hl := hbase NBar.low (fun b hb => (allFieldsCorrupt_eq b hb).2.2.1)
    have hc := hbase NBar.close (fun b hb => (allFieldsCorrupt_eq b hb).2.2.2.1)
    have hv := hbase NBar.volume (fun b hb => (allFieldsCorrupt_eq b hb).2.2.2.2)
    simp only [aggFirst, aggLast, aggMax, aggMin, aggSum]
    rw [ho, hh, hl, hc, hv]
